import Mathlib

/-!
Verification of the xbox-prices repository against its specification.

The frontend (React) is embedded from `src/App.jsx` / `src/components/GameItem`
/ `src/components/GameList`.  JavaScript strings are embedded as `String`,
nullable numbers as `Option Rat` (JSON numbers are exact decimals here),
nullable strings as `Option String`, and JavaScript truthiness of a nullable
string (`undefined`/`null`/`""` are falsy) as an explicit boolean test.
The Python scraping pipeline (merger, persistence writer, notification
dispatcher) is not part of the provided sources; those parts are modelled
from the specification and are marked as such in their doc comments.
-/

/-- One catalog item as it appears in the persisted JSON artifact
(`public/xbox_pc_games.json`), before the consumer assigns an `id`.
Field names follow the JSON schema / the React components. -/
structure RawGame where
  link : Option String
  titulo : String
  precio_num : Option Rat
  precio_texto : Option String
  precio_old_num : Option Rat
  precio_descuento_num : Option Int
  precio_cambio : Option String
  precio_anterior_num : Option Rat
  imagen_url : Option String
deriving DecidableEq

/-- A game record as held in the React application state: the raw record
plus the `id` assigned by the fetch effect in `App`. -/
structure Game extends RawGame where
  id : String
deriving DecidableEq

/-- JavaScript truthiness of a nullable string: `undefined`/`null` and the
empty string are falsy, every other string is truthy. -/
def truthyStr : Option String → Bool
  | Option.none => false
  | Option.some s => !(s == "")

/-- Embeds `GameItem`'s `isValidImageUrl` check:
`game.imagen_url && game.imagen_url !== "Imagen no encontrada" &&
game.imagen_url.startsWith('http')`. -/
def isValidImageUrl (g : Game) : Bool :=
  match g.imagen_url with
  | Option.none => false
  | Option.some u => !(u == "") && !(u == "Imagen no encontrada") && u.startsWith "http"

/-- What the image slot of a game card renders: an `img` element with the
given source, or the "Sin Imagen" placeholder. -/
inductive ImageRender where
  | img (src : String)
  | sinImagenPlaceholder
deriving DecidableEq

/-- Embeds the image part of `GameItem`'s JSX: an `img` element exactly when
`isValidImageUrl`, the "Sin Imagen" placeholder otherwise. -/
def renderGameImage (g : Game) : ImageRender :=
  if isValidImageUrl g then ImageRender.img (g.imagen_url.getD "")
  else ImageRender.sinImagenPlaceholder

/-- The current-price line of a game card: a locale-formatted numeric price,
the literal text "Gratis", or the raw stored `precio_texto`. -/
inductive PriceLine where
  | formatted (value : Rat)
  | gratis
  | rawText (t : Option String)
deriving DecidableEq

/-- Embeds the current-price line of `GameItem`'s JSX:
`precio_num !== null && typeof precio_num === 'number' && precio_num > 0`
renders the formatted price, `precio_num === 0` renders "Gratis", anything
else renders `precio_texto`. -/
def renderPriceLine (g : Game) : PriceLine :=
  match g.precio_num with
  | Option.some p =>
      if p > 0 then PriceLine.formatted p
      else if p = 0 then PriceLine.gratis
      else PriceLine.rawText g.precio_texto
  | Option.none => PriceLine.rawText g.precio_texto

/-- Embeds the guard `game.precio_cambio && ...` of `GameItem`'s JSX: the
price-change indicator block is rendered exactly when `precio_cambio` is a
truthy string. -/
def showsChangeIndicator (g : Game) : Bool :=
  truthyStr g.precio_cambio

/-- The set of `precio_cambio` values that `GameItem` treats as an increase
or a decrease, in both the persisted Spanish and the English spelling. -/
def isIncreaseOrDecrease (s : String) : Bool :=
  s == "increased" || s == "subió" || s == "decreased" || s == "bajó"

/-- Embeds the "(Antes: ...)" annotation of `GameItem`'s JSX: rendered inside
the price-change indicator when `precio_anterior_num` is a number and
`precio_cambio` is one of increased/decreased/subió/bajó. -/
def showsPreviousPrice (g : Game) : Bool :=
  showsChangeIndicator g &&
    (match g.precio_anterior_num, g.precio_cambio with
     | Option.some _, Option.some s => isIncreaseOrDecrease s
     | _, _ => false)

/-- A value classified as an increase or a decrease is a non-empty string. -/
theorem isIncreaseOrDecrease_ne_empty {s : String} (h : isIncreaseOrDecrease s = true) :
    s ≠ "" := by
  intro he
  subst he
  simp [isIncreaseOrDecrease] at h

/-- A concrete game whose price is a positive number. -/
def gameFormatted : Game where
  link := Option.none
  titulo := "a"
  precio_num := Option.some 10
  precio_texto := Option.none
  precio_old_num := Option.none
  precio_descuento_num := Option.none
  precio_cambio := Option.none
  precio_anterior_num := Option.none
  imagen_url := Option.none
  id := "a"

/-- A concrete game whose price is exactly zero. -/
def gameGratis : Game where
  link := Option.none
  titulo := "b"
  precio_num := Option.some 0
  precio_texto := Option.none
  precio_old_num := Option.none
  precio_descuento_num := Option.none
  precio_cambio := Option.none
  precio_anterior_num := Option.none
  imagen_url := Option.none
  id := "b"

/-- A concrete game with no numeric price, only price text. -/
def gameTexto : Game where
  link := Option.none
  titulo := "c"
  precio_num := Option.none
  precio_texto := Option.some "Incluido con Game Pass"
  precio_old_num := Option.none
  precio_descuento_num := Option.none
  precio_cambio := Option.none
  precio_anterior_num := Option.none
  imagen_url := Option.none
  id := "c"

/-- A concrete game whose price decreased from a prior snapshot. -/
def gameBajo : Game where
  link := Option.none
  titulo := "d"
  precio_num := Option.some 10
  precio_texto := Option.none
  precio_old_num := Option.none
  precio_descuento_num := Option.none
  precio_cambio := Option.some "bajó"
  precio_anterior_num := Option.some 20
  imagen_url := Option.none
  id := "d"

/-- C3: a game's image URL is usable iff it is present (non-empty), not the
sentinel "Imagen no encontrada", and starts with "http"; the "Sin Imagen"
placeholder is rendered exactly when the URL is not usable. -/
theorem c3_image_url_validation (g : Game) :
    (isValidImageUrl g = true ↔
      ∃ u, g.imagen_url = Option.some u ∧ u ≠ "" ∧ u ≠ "Imagen no encontrada" ∧
        u.startsWith "http" = true) ∧
    (renderGameImage g = ImageRender.sinImagenPlaceholder ↔ isValidImageUrl g = false) := by
  constructor
  · cases hu : g.imagen_url with
    | none => simp [isValidImageUrl, hu]
    | some u =>
      simp only [isValidImageUrl, hu, Bool.and_eq_true, Bool.not_eq_true', beq_eq_false_iff_ne,
        ne_eq, Option.some.injEq]
      constructor
      · rintro ⟨⟨h1, h2⟩, h3⟩
        exact ⟨u, rfl, h1, h2, h3⟩
      · rintro ⟨v, rfl, h1, h2, h3⟩
        exact ⟨⟨h1, h2⟩, h3⟩
  · unfold renderGameImage
    by_cases h : isValidImageUrl g = true
    · simp [h]
    · have h2 : isValidImageUrl g = false := by simpa using h
      simp [h2]

/-- C4: the current-price line shows the formatted numeric price when
`precio_num > 0`, the text "Gratis" when `precio_num = 0`, and the raw
`precio_texto` in every other case, including `precio_num` null. -/
theorem c4_price_line (g : Game) :
    (∀ p, g.precio_num = Option.some p →
      (0 < p → renderPriceLine g = PriceLine.formatted p) ∧
      (p = 0 → renderPriceLine g = PriceLine.gratis) ∧
      (p < 0 → renderPriceLine g = PriceLine.rawText g.precio_texto)) ∧
    (g.precio_num = Option.none → renderPriceLine g = PriceLine.rawText g.precio_texto) := by
  constructor
  · intro p hp
    refine ⟨fun hpos => ?_, fun hzero => ?_, fun hneg => ?_⟩
    · simp [renderPriceLine, hp, hpos]
    · simp [renderPriceLine, hp, hzero]
    · have h1 : ¬ (p > 0) := lt_asymm hneg
      have h2 : p ≠ 0 := ne_of_lt hneg
      simp [renderPriceLine, hp, h1, h2]
  · intro h
    simp [renderPriceLine, h]

/-- C4 witness: the three branches of the price line at concrete games. -/
theorem c4_price_line_witness :
    renderPriceLine gameFormatted = PriceLine.formatted 10 ∧
    renderPriceLine gameGratis = PriceLine.gratis ∧
    renderPriceLine gameTexto = PriceLine.rawText (Option.some "Incluido con Game Pass") := by
  refine ⟨?_, ?_, ?_⟩
  · exact ((c4_price_line gameFormatted).1 10 rfl).1 (by norm_num)
  · exact ((c4_price_line gameGratis).1 0 rfl).2.1 rfl
  · exact (c4_price_line gameTexto).2 rfl

/-- C5: the "(Antes: ...)" previous-price annotation is rendered iff
`precio_anterior_num` is a non-null number and `precio_cambio` denotes an
increase or a decrease (Spanish or English value), and no price-change
indicator at all is rendered when `precio_cambio` is null. -/
theorem c5_previous_price_indicator (g : Game) :
    (showsPreviousPrice g = true ↔
      (∃ q, g.precio_anterior_num = Option.some q) ∧
      ∃ s, g.precio_cambio = Option.some s ∧ isIncreaseOrDecrease s = true) ∧
    (g.precio_cambio = Option.none →
      showsChangeIndicator g = false ∧ showsPreviousPrice g = false) := by
  constructor
  · cases hc : g.precio_cambio with
    | none => simp [showsPreviousPrice, showsChangeIndicator, truthyStr, hc]
    | some s =>
      cases ha : g.precio_anterior_num with
      | none => simp [showsPreviousPrice, ha]
      | some q =>
        simp only [showsPreviousPrice, showsChangeIndicator, truthyStr, hc, ha,
          Bool.and_eq_true, Bool.not_eq_true', beq_eq_false_iff_ne, ne_eq,
          Option.some.injEq]
        constructor
        · rintro ⟨-, h3⟩
          exact ⟨⟨q, rfl⟩, s, rfl, h3⟩
        · rintro ⟨-, t, ht, h3⟩
          subst ht
          exact ⟨isIncreaseOrDecrease_ne_empty h3, h3⟩
  · intro h
    constructor
    · simp [showsChangeIndicator, truthyStr, h]
    · simp [showsPreviousPrice, showsChangeIndicator, truthyStr, h]

/-- C5 witness: annotation shown for a decreased game with a prior price,
and no indicator when `precio_cambio` is null. -/
theorem c5_previous_price_indicator_witness :
    showsPreviousPrice gameBajo = true ∧ showsChangeIndicator gameGratis = false := by
  constructor
  · exact (c5_previous_price_indicator gameBajo).1.2 ⟨⟨20, rfl⟩, "bajó", rfl, by decide⟩
  · exact ((c5_previous_price_indicator gameGratis).2 rfl).1

/-- A fetched catalog document, as the `App` fetch effect receives it: either
the wrapped form `{ fecha_creacion, juegos }` or the legacy bare array of
item objects. -/
inductive CatalogDoc where
  | wrapped (juegos : List RawGame) (fecha_creacion : Option String)
  | bare (juegos : List RawGame)

/-- Embeds the id assignment of the fetch effect in `App`:
`{ ...game, id: game.link || `game-${index}` }` (a falsy link, absent or
empty, yields the synthesized id). -/
def assignId (index : Nat) (g : RawGame) : Game :=
  { toRawGame := g,
    id := match g.link with
      | Option.some l => if l == "" then "game-" ++ toString index else l
      | Option.none => "game-" ++ toString index }

/-- Embeds `juegosData.map((game, index) => ...)`: id assignment over the
list with its running index. -/
def assignIds : Nat → List RawGame → List Game
  | _, [] => []
  | i, g :: gs => assignId i g :: assignIds (i + 1) gs

/-- Embeds `const juegosData = data.juegos ? data.juegos : data` of the
fetch effect: a wrapped document yields its `juegos` array (a JavaScript
array value is truthy), a bare document yields itself. -/
def docJuegos : CatalogDoc → List RawGame
  | CatalogDoc.wrapped js _ => js
  | CatalogDoc.bare js => js

/-- Embeds `const fechaCreacion = data.fecha_creacion || null`: the wrapped
form's timestamp if truthy, otherwise null; a bare array has no
`fecha_creacion` property at all. -/
def docFechaCreacion : CatalogDoc → Option String
  | CatalogDoc.wrapped _ f =>
      match f with
      | Option.some s => if s == "" then Option.none else Option.some s
      | Option.none => Option.none
  | CatalogDoc.bare _ => Option.none

/-- Embeds the whole fetch-success handler of `App`: the resulting game
list (with ids assigned) and the creation timestamp. -/
def loadCatalog (d : CatalogDoc) : List Game × Option String :=
  (assignIds 0 (docJuegos d), docFechaCreacion d)

/-- The id assignment preserves the list length. -/
theorem assignIds_length (k : Nat) (l : List RawGame) :
    (assignIds k l).length = l.length := by
  induction l generalizing k with
  | nil => rfl
  | cons g gs ih => simp [assignIds, ih]

/-- Element-wise description of the id assignment. -/
theorem assignIds_get (k : Nat) (l : List RawGame) (i : Nat)
    (h : i < l.length) :
    (assignIds k l).get ⟨i, by rw [assignIds_length]; exact h⟩ =
      assignId (k + i) (l.get ⟨i, h⟩) := by
  induction l generalizing k i with
  | nil => exact absurd h (by simp)
  | cons g gs ih =>
    cases i with
    | zero => simp [assignIds]
    | succ n =>
      have hn : n < gs.length := by simpa using h
      have := ih (k + 1) n hn
      simpa [assignIds, Nat.add_assoc, Nat.add_comm 1 n] using this

/-- C1: the consumer accepts both the wrapped form and the legacy bare-array
form: the game list comes from `juegos` for a wrapped document and from the
array itself for a bare one (so both forms yield the same games), the
creation timestamp is taken from `fecha_creacion` for the wrapped form and
is null for the bare form, and each game's id is its link when the link is
present (truthy) and `game-<index>` otherwise, with the raw record fields
preserved. -/
theorem c1_consumer_document_compat :
    (∀ js f, (loadCatalog (CatalogDoc.wrapped js f)).1 = (loadCatalog (CatalogDoc.bare js)).1) ∧
    (∀ js, (loadCatalog (CatalogDoc.bare js)).2 = Option.none) ∧
    (∀ js s, s ≠ "" → (loadCatalog (CatalogDoc.wrapped js (Option.some s))).2 = Option.some s) ∧
    (∀ d (i : Nat) (h : i < (docJuegos d).length),
      ((loadCatalog d).1.get ⟨i, by simpa [loadCatalog, assignIds_length] using h⟩).toRawGame =
        (docJuegos d).get ⟨i, h⟩ ∧
      ((loadCatalog d).1.get ⟨i, by simpa [loadCatalog, assignIds_length] using h⟩).id =
        (match ((docJuegos d).get ⟨i, h⟩).link with
         | Option.some l => if l == "" then "game-" ++ toString i else l
         | Option.none => "game-" ++ toString i)) := by
  refine ⟨fun js f => rfl, fun js => rfl, fun js s hs => ?_, fun d i h => ?_⟩
  · simp only [loadCatalog, docFechaCreacion]
    rw [if_neg (by simpa using hs)]
  · have hget := assignIds_get 0 (docJuegos d) i h
    simp only [Nat.zero_add] at hget
    constructor
    · exact congrArg Game.toRawGame hget
    · exact congrArg Game.id hget

/-- A raw record with a non-empty link. -/
def rawWithLink : RawGame where
  link := Option.some "https://example.org/g"
  titulo := "w"
  precio_num := Option.none
  precio_texto := Option.none
  precio_old_num := Option.none
  precio_descuento_num := Option.none
  precio_cambio := Option.none
  precio_anterior_num := Option.none
  imagen_url := Option.none

/-- A raw record with no link at all. -/
def rawNoLink : RawGame where
  link := Option.none
  titulo := "n"
  precio_num := Option.none
  precio_texto := Option.none
  precio_old_num := Option.none
  precio_descuento_num := Option.none
  precio_cambio := Option.none
  precio_anterior_num := Option.none
  imagen_url := Option.none

/-- C1 witness: concrete wrapped and bare documents over two records. -/
theorem c1_consumer_document_compat_witness :
    (loadCatalog (CatalogDoc.wrapped [rawWithLink, rawNoLink] (Option.some "2024-01-01"))).1 =
      (loadCatalog (CatalogDoc.bare [rawWithLink, rawNoLink])).1 ∧
    (loadCatalog (CatalogDoc.bare [rawWithLink, rawNoLink])).2 = Option.none ∧
    (loadCatalog (CatalogDoc.wrapped [rawWithLink, rawNoLink] (Option.some "2024-01-01"))).2 =
      Option.some "2024-01-01" ∧
    ((loadCatalog (CatalogDoc.bare [rawWithLink, rawNoLink])).1.get
        ⟨0, by simp [loadCatalog, assignIds_length, docJuegos]⟩).id = "https://example.org/g" ∧
    ((loadCatalog (CatalogDoc.bare [rawWithLink, rawNoLink])).1.get
        ⟨1, by simp [loadCatalog, assignIds_length, docJuegos]⟩).id = "game-1" := by
  refine ⟨c1_consumer_document_compat.1 [rawWithLink, rawNoLink] (Option.some "2024-01-01"),
    c1_consumer_document_compat.2.1 [rawWithLink, rawNoLink],
    c1_consumer_document_compat.2.2.1 [rawWithLink, rawNoLink] "2024-01-01" (by decide), ?_, ?_⟩
  · have := (c1_consumer_document_compat.2.2.2 (CatalogDoc.bare [rawWithLink, rawNoLink]) 0
      (by simp [docJuegos])).2
    simpa [docJuegos, rawWithLink] using this
  · have := (c1_consumer_document_compat.2.2.2 (CatalogDoc.bare [rawWithLink, rawNoLink]) 1
      (by simp [docJuegos])).2
    simpa [docJuegos, rawNoLink] using this

/-- Embeds `GameList.handleSelectToggle`: if any selected entry shares the
game's id or the game's link, remove every such entry; otherwise append the
game. -/
def handleSelectToggle (prev : List Game) (game : Game) : List Game :=
  if prev.any (fun g => g.id == game.id || g.link == game.link) then
    prev.filter (fun g => !(g.id == game.id) && !(g.link == game.link))
  else
    prev ++ [game]

/-- The boolean key-sharing test coincides with the propositional one. -/
theorem sharesKey_iff (g game : Game) :
    (g.id == game.id || g.link == game.link) = true ↔
      (g.id = game.id ∨ g.link = game.link) := by
  simp

/-- Two concrete games with the same id but different links. -/
def gameLinkA : Game where
  link := Option.some "a"
  titulo := "A"
  precio_num := Option.none
  precio_texto := Option.none
  precio_old_num := Option.none
  precio_descuento_num := Option.none
  precio_cambio := Option.none
  precio_anterior_num := Option.none
  imagen_url := Option.none
  id := "x"

/-- Companion to `gameLinkA`: same id, different link and title. -/
def gameLinkB : Game where
  link := Option.some "b"
  titulo := "B"
  precio_num := Option.none
  precio_texto := Option.none
  precio_old_num := Option.none
  precio_descuento_num := Option.none
  precio_cambio := Option.none
  precio_anterior_num := Option.none
  imagen_url := Option.none
  id := "x"

/-- C8 counterexample: with selection `[gameLinkA]` (trivially free of two
distinct entries sharing an id or a link) and toggled game `gameLinkB`,
which shares `gameLinkA`'s id but is a different game, toggling twice gives
`[gameLinkB]`, which is not set-equal to the original selection. -/
theorem c8_counterexample :
    (∀ g1 ∈ [gameLinkA], ∀ g2 ∈ [gameLinkA], g1 ≠ g2 → g1.id ≠ g2.id ∧ g1.link ≠ g2.link) ∧
    ¬ (∀ x, x ∈ handleSelectToggle (handleSelectToggle [gameLinkA] gameLinkB) gameLinkB ↔
        x ∈ [gameLinkA]) := by
  constructor
  · intro g1 h1 g2 h2 hne
    simp only [List.mem_singleton] at h1 h2
    subst h1
    subst h2
    exact absurd rfl hne
  · intro hall
    have hcomp : handleSelectToggle (handleSelectToggle [gameLinkA] gameLinkB) gameLinkB =
        [gameLinkB] := by decide
    have h2 := (hall gameLinkA).2 (List.mem_singleton.mpr rfl)
    rw [hcomp, List.mem_singleton] at h2
    exact absurd h2 (by decide)

/-- If some selected entry shares the toggled game's id or link, the boolean
`any` test of `handleSelectToggle` is true. -/
theorem any_sharesKey_eq_true {prev : List Game} {game : Game}
    (h : ∃ g ∈ prev, g.id = game.id ∨ g.link = game.link) :
    prev.any (fun g => g.id == game.id || g.link == game.link) = true := by
  rw [List.any_eq_true]
  obtain ⟨g, hg, hs⟩ := h
  exact ⟨g, hg, (sharesKey_iff g game).2 hs⟩

/-- If no selected entry shares the toggled game's id or link, the boolean
`any` test of `handleSelectToggle` is false. -/
theorem any_sharesKey_eq_false {prev : List Game} {game : Game}
    (h : ∀ g ∈ prev, ¬(g.id = game.id ∨ g.link = game.link)) :
    prev.any (fun g => g.id == game.id || g.link == game.link) = false := by
  cases hb : prev.any (fun g => g.id == game.id || g.link == game.link) with
  | false => rfl
  | true =>
    rw [List.any_eq_true] at hb
    obtain ⟨g, hg, hs⟩ := hb
    exact absurd ((sharesKey_iff g game).1 hs) (h g hg)

/-- C8 (amended): the toggle removes exactly the entries sharing the game's
id or link when at least one exists, and appends the game otherwise; and
when no selected entry distinct from the toggled game shares the toggled
game's id or link, toggling twice with the same game yields a selection
equal as a set to the original. -/
theorem c8_select_toggle (prev : List Game) (game : Game) :
    ((∃ g ∈ prev, g.id = game.id ∨ g.link = game.link) →
      ∀ x, x ∈ handleSelectToggle prev game ↔
        (x ∈ prev ∧ ¬(x.id = game.id ∨ x.link = game.link))) ∧
    ((∀ g ∈ prev, ¬(g.id = game.id ∨ g.link = game.link)) →
      handleSelectToggle prev game = prev ++ [game]) ∧
    ((∀ g ∈ prev, (g.id = game.id ∨ g.link = game.link) → g = game) →
      ∀ x, x ∈ handleSelectToggle (handleSelectToggle prev game) game ↔ x ∈ prev) := by
  refine ⟨?_, ?_, ?_⟩
  · intro hex x
    rw [handleSelectToggle, if_pos (any_sharesKey_eq_true hex), List.mem_filter]
    constructor
    · rintro ⟨hx, hb⟩
      refine ⟨hx, ?_⟩
      simp only [Bool.and_eq_true, Bool.not_eq_true', beq_eq_false_iff_ne, ne_eq] at hb
      rw [not_or]
      exact hb
    · rintro ⟨hx, hn⟩
      refine ⟨hx, ?_⟩
      rw [not_or] at hn
      simp only [Bool.and_eq_true, Bool.not_eq_true', beq_eq_false_iff_ne, ne_eq]
      exact hn
  · intro hnone
    rw [handleSelectToggle, if_neg (by simp [any_sharesKey_eq_false hnone])]
  · intro H x
    by_cases hex : ∃ g ∈ prev, g.id = game.id ∨ g.link = game.link
    · obtain ⟨g0, hg0, hs0⟩ := hex
      have hgame : game ∈ prev := by
        have he := H g0 hg0 hs0
        rw [he] at hg0
        exact hg0
      have hany : prev.any (fun g => g.id == game.id || g.link == game.link) = true :=
        any_sharesKey_eq_true ⟨g0, by rw [H g0 hg0 hs0]; exact hgame, by
          rw [H g0 hg0 hs0]; exact Or.inl rfl⟩
      have ht1 : handleSelectToggle prev game =
          prev.filter (fun g => !(g.id == game.id) && !(g.link == game.link)) := by
        rw [handleSelectToggle, if_pos hany]
      have ht1none : ∀ g ∈ prev.filter
          (fun g => !(g.id == game.id) && !(g.link == game.link)),
          ¬(g.id = game.id ∨ g.link = game.link) := by
        intro g hg
        rw [List.mem_filter] at hg
        have hb := hg.2
        simp only [Bool.and_eq_true, Bool.not_eq_true', beq_eq_false_iff_ne, ne_eq] at hb
        rw [not_or]
        exact hb
      have ht2 : handleSelectToggle
          (prev.filter (fun g => !(g.id == game.id) && !(g.link == game.link))) game =
          prev.filter (fun g => !(g.id == game.id) && !(g.link == game.link)) ++ [game] := by
        rw [handleSelectToggle, if_neg (by simp [any_sharesKey_eq_false ht1none])]
      rw [ht1, ht2, List.mem_append, List.mem_filter, List.mem_singleton]
      constructor
      · rintro (⟨hx, -⟩ | rfl)
        · exact hx
        · exact hgame
      · intro hx
        by_cases hxg : x.id = game.id ∨ x.link = game.link
        · exact Or.inr (H x hx hxg)
        · refine Or.inl ⟨hx, ?_⟩
          rw [not_or] at hxg
          simp only [Bool.and_eq_true, Bool.not_eq_true', beq_eq_false_iff_ne, ne_eq]
          exact hxg
    · have hnone : ∀ g ∈ prev, ¬(g.id = game.id ∨ g.link = game.link) := by
        intro g hg hP
        exact hex ⟨g, hg, hP⟩
      have ht1 : handleSelectToggle prev game = prev ++ [game] := by
        rw [handleSelectToggle, if_neg (by simp [any_sharesKey_eq_false hnone])]
      have hany2 : (prev ++ [game]).any
          (fun g => g.id == game.id || g.link == game.link) = true := by
        rw [List.any_eq_true]
        exact ⟨game, by simp, by simp⟩
      have ht2 : handleSelectToggle (prev ++ [game]) game =
          (prev ++ [game]).filter (fun g => !(g.id == game.id) && !(g.link == game.link)) := by
        rw [handleSelectToggle, if_pos hany2]
      have hsingle : [game].filter (fun g => !(g.id == game.id) && !(g.link == game.link)) =
          ([] : List Game) := by
        simp
      have hprevfilter : prev.filter (fun g => !(g.id == game.id) && !(g.link == game.link)) =
          prev := by
        apply List.filter_eq_self.2
        intro g hg
        have hng := hnone g hg
        rw [not_or] at hng
        simp only [Bool.and_eq_true, Bool.not_eq_true', beq_eq_false_iff_ne, ne_eq]
        exact hng
      rw [ht1, ht2, List.filter_append, hsingle, hprevfilter, List.append_nil]

/-- C8 witness: toggling the sole selected game twice restores the
selection. -/
theorem c8_select_toggle_witness :
    gameLinkA ∈ handleSelectToggle (handleSelectToggle [gameLinkA] gameLinkA) gameLinkA ↔
      gameLinkA ∈ [gameLinkA] := by
  refine (c8_select_toggle [gameLinkA] gameLinkA).2.2 ?_ gameLinkA
  intro g hg hs
  exact List.mem_singleton.mp hg

/-- The three values of the sort selector in `App`. -/
inductive SortType where
  | default
  | asc
  | desc
deriving DecidableEq

/-- The filter/sort state of `App`, after the numeric parsing that
`applyFiltersAndSort` performs on its string-typed inputs: an empty or
unparsable price field (`NaN`) is `none`. -/
structure Filters where
  sortType : SortType
  filterMinPrice : Option Rat
  filterMaxPrice : Option Rat
  hideNoPrice : Bool
  filterDiscountPercent : Int
  filterTitle : String
deriving DecidableEq

/-- Character-list test for `needle` occurring at the front of `hay`. -/
def isSubAt : List Char → List Char → Bool
  | [], _ => true
  | _ :: _, [] => false
  | a :: as, b :: bs => a == b && isSubAt as bs

/-- Embeds JavaScript `String.prototype.includes`: `needle` occurs
somewhere in `hay`. -/
def containsSub : List Char → List Char → Bool
  | needle, [] => needle.isEmpty
  | needle, c :: t => isSubAt needle (c :: t) || containsSub needle t

/-- Embeds the repeated zero-price / no-price block of the filter in `App`:
`if (hideNoPrice) return false; if (!isNaN(minPrice) || !isNaN(maxPrice))
return false;` and otherwise pass. -/
def noPriceBranch (f : Filters) : Bool :=
  if f.hideNoPrice then false
  else if f.filterMinPrice.isSome || f.filterMaxPrice.isSome then false
  else true

/-- Embeds the filter predicate of `App.applyFiltersAndSort`: the title
filter, the minimum-discount filter, and the three-way price filter
(positive price checked against min/max, zero price and non-numeric price
both subject to `hideNoPrice` and to any active numeric price filter). -/
def gamePassesFilter (f : Filters) (g : Game) : Bool :=
  let tq := (f.filterTitle.toLower).trim
  if tq != "" && !(containsSub tq.toList ((g.titulo.toLower).toList)) then false
  else if f.filterDiscountPercent > 0 &&
      (match g.precio_descuento_num with
       | Option.none => true
       | Option.some d => decide (d < f.filterDiscountPercent)) then false
  else
    match g.precio_num with
    | Option.some p =>
        if p > 0 then
          (match f.filterMinPrice with
           | Option.some m => decide (p ≥ m)
           | Option.none => true) &&
          (match f.filterMaxPrice with
           | Option.some m => decide (p ≤ m)
           | Option.none => true)
        else if p == 0 then noPriceBranch f
        else noPriceBranch f
    | Option.none => noPriceBranch f

/-- The ascending sort key of `App`'s comparator: a null `precio_num` is
treated as `+Infinity`. -/
def sortKeyAsc (g : Game) : WithTop Rat :=
  match g.precio_num with
  | Option.none => ⊤
  | Option.some p => (p : WithTop Rat)

/-- The descending sort key of `App`'s comparator: a null `precio_num` is
treated as `-Infinity`. -/
def sortKeyDesc (g : Game) : WithBot Rat :=
  match g.precio_num with
  | Option.none => ⊥
  | Option.some p => (p : WithBot Rat)

/-- Embeds `App.applyFiltersAndSort`: filter, then (for a non-default sort
type) a stable sort by the price comparator. -/
def applyFiltersAndSort (f : Filters) (allGames : List Game) : List Game :=
  let workingGames := allGames.filter (gamePassesFilter f)
  match f.sortType with
  | SortType.default => workingGames
  | SortType.asc =>
      workingGames.mergeSort (fun a b => decide (sortKeyAsc a ≤ sortKeyAsc b))
  | SortType.desc =>
      workingGames.mergeSort (fun a b => decide (sortKeyDesc b ≤ sortKeyDesc a))

/-- C9: with an active price sort, every record with a null `precio_num`
comes after all records with a numeric price, and the numeric prices are
non-decreasing for the ascending sort and non-increasing for the
descending sort. -/
theorem c9_price_sort_order (f : Filters) (games : List Game) :
    ((applyFiltersAndSort { f with sortType := SortType.asc } games).Pairwise
      (fun a b => (a.precio_num = Option.none → b.precio_num = Option.none) ∧
        ∀ x y, a.precio_num = Option.some x → b.precio_num = Option.some y → x ≤ y)) ∧
    ((applyFiltersAndSort { f with sortType := SortType.desc } games).Pairwise
      (fun a b => (a.precio_num = Option.none → b.precio_num = Option.none) ∧
        ∀ x y, a.precio_num = Option.some x → b.precio_num = Option.some y → y ≤ x)) := by
  constructor
  · have hs := @List.sorted_mergeSort Game
      (fun a b : Game => decide (sortKeyAsc a ≤ sortKeyAsc b))
      (fun a b c hab hbc => by
        simp only [decide_eq_true_eq] at hab hbc ⊢
        exact le_trans hab hbc)
      (fun a b => by
        simp only [Bool.or_eq_true, decide_eq_true_eq]
        exact le_total _ _)
      (games.filter (gamePassesFilter { f with sortType := SortType.asc }))
    have heq : applyFiltersAndSort { f with sortType := SortType.asc } games =
        (games.filter (gamePassesFilter { f with sortType := SortType.asc })).mergeSort
          (fun a b => decide (sortKeyAsc a ≤ sortKeyAsc b)) := rfl
    rw [heq]
    refine hs.imp (fun {a b} hab => ?_)
    have hle : sortKeyAsc a ≤ sortKeyAsc b := by simpa using hab
    constructor
    · intro ha
      cases hb : b.precio_num with
      | none => rfl
      | some q =>
        simp only [sortKeyAsc, ha, hb] at hle
        exact absurd (top_le_iff.mp hle) (WithTop.coe_ne_top)
    · intro x y hx hy
      simp only [sortKeyAsc, hx, hy] at hle
      exact WithTop.coe_le_coe.mp hle
  · have hs := @List.sorted_mergeSort Game
      (fun a b : Game => decide (sortKeyDesc b ≤ sortKeyDesc a))
      (fun a b c hab hbc => by
        simp only [decide_eq_true_eq] at hab hbc ⊢
        exact le_trans hbc hab)
      (fun a b => by
        simp only [Bool.or_eq_true, decide_eq_true_eq]
        exact le_total _ _)
      (games.filter (gamePassesFilter { f with sortType := SortType.desc }))
    have heq : applyFiltersAndSort { f with sortType := SortType.desc } games =
        (games.filter (gamePassesFilter { f with sortType := SortType.desc })).mergeSort
          (fun a b => decide (sortKeyDesc b ≤ sortKeyDesc a)) := rfl
    rw [heq]
    refine hs.imp (fun {a b} hab => ?_)
    have hle : sortKeyDesc b ≤ sortKeyDesc a := by simpa using hab
    constructor
    · intro ha
      cases hb : b.precio_num with
      | none => rfl
      | some q =>
        simp only [sortKeyDesc, ha, hb] at hle
        exact absurd (le_bot_iff.mp hle) (WithBot.coe_ne_bot)
    · intro x y hx hy
      simp only [sortKeyDesc, hx, hy] at hle
      exact WithBot.coe_le_coe.mp hle

/-- With a numeric price filter active or the hide-no-price checkbox set,
the shared zero/no-price block rejects. -/
theorem noPriceBranch_eq_false {f : Filters}
    (hf : f.filterMinPrice.isSome = true ∨ f.filterMaxPrice.isSome = true ∨
      f.hideNoPrice = true) :
    noPriceBranch f = false := by
  unfold noPriceBranch
  rcases hf with hm | hm | hm
  · simp [hm]
  · simp [hm]
  · simp [hm]

/-- A record with a null or zero `precio_num` fails the filter whenever a
numeric min/max price filter is active or `hideNoPrice` is set. -/
theorem gamePassesFilter_noprice_eq_false {f : Filters} {g : Game}
    (hg : g.precio_num = Option.none ∨ g.precio_num = Option.some 0)
    (hf : f.filterMinPrice.isSome = true ∨ f.filterMaxPrice.isSome = true ∨
      f.hideNoPrice = true) :
    gamePassesFilter f g = false := by
  unfold gamePassesFilter
  have hnp := noPriceBranch_eq_false hf
  rcases hg with h | h
  · simp only [h, hnp]
    split
    · rfl
    · split
      · rfl
      · rfl
  · simp only [h, hnp]
    split
    · rfl
    · split
      · rfl
      · rw [if_neg (by norm_num), if_pos (by decide)]

/-- C10: a record whose `precio_num` is null or zero never appears in the
displayed list when a numeric minimum or maximum price filter is set, or
when the hide-no-price checkbox is set, regardless of the other filters. -/
theorem c10_price_filter_excludes (f : Filters) (g : Game) (games : List Game)
    (hg : g.precio_num = Option.none ∨ g.precio_num = Option.some 0)
    (hf : f.filterMinPrice.isSome = true ∨ f.filterMaxPrice.isSome = true ∨
      f.hideNoPrice = true) :
    g ∉ applyFiltersAndSort f games := by
  intro hmem
  have hmem2 : g ∈ games.filter (gamePassesFilter f) := by
    unfold applyFiltersAndSort at hmem
    rcases hst : f.sortType with _ | _ | _ <;> simp only [hst] at hmem
    · exact hmem
    · simpa using hmem
    · simpa using hmem
  rw [List.mem_filter, gamePassesFilter_noprice_eq_false hg hf] at hmem2
  exact absurd hmem2.2 (by simp)

/-- Filter state with only a minimum price set. -/
def filtersMinOnly : Filters where
  sortType := SortType.default
  filterMinPrice := Option.some 100
  filterMaxPrice := Option.none
  hideNoPrice := false
  filterDiscountPercent := 0
  filterTitle := ""

/-- C10 witness: a free game is excluded once a minimum price is set. -/
theorem c10_price_filter_excludes_witness :
    gameGratis ∉ applyFiltersAndSort filtersMinOnly [gameGratis] :=
  c10_price_filter_excludes filtersMinOnly gameGratis [gameGratis]
    (Or.inr rfl) (Or.inl rfl)

/-- Modelled from the spec: the price-change classification of the Catalog
Merger (`increased | decreased | unchanged | none`); the Python `scrap`
module that computes it is not among the provided sources. -/
inductive PriceChange where
  | increased
  | decreased
  | unchanged
  | none
deriving DecidableEq

/-- Modelled from the spec: a record of the previously persisted catalog as
the Merger consults it (join key `id` and the prior `current_price`). -/
structure PrevRecord where
  id : String
  current_price : Option Rat
deriving DecidableEq

/-- Modelled from the spec: a freshly parsed record as it reaches the
Merger (join key `id` and the new `current_price`). -/
structure NewRecord where
  id : String
  current_price : Option Rat
deriving DecidableEq

/-- Modelled from the spec: a merged record, carrying the computed
`price_change` and `previous_price`. -/
structure MergedRecord where
  id : String
  current_price : Option Rat
  price_change : PriceChange
  previous_price : Option Rat
deriving DecidableEq

/-- Modelled from the spec: the Merger's lookup of a prior record with the
same id in the previously persisted catalog. -/
def lookupPrior (prior : List PrevRecord) (i : String) : Option PrevRecord :=
  prior.find? (fun p => p.id == i)

/-- Modelled from the spec: the Merger's per-record diff — no prior record
or a non-numeric price on either side yields `none`/null, otherwise the
prices are compared and `previous_price` is the prior price exactly for an
increase or a decrease. The Python implementation is not among the
provided sources. -/
def mergeRecord (prior : List PrevRecord) (r : NewRecord) : MergedRecord :=
  match lookupPrior prior r.id with
  | Option.none => ⟨r.id, r.current_price, PriceChange.none, Option.none⟩
  | Option.some p =>
      match r.current_price, p.current_price with
      | Option.some newP, Option.some oldP =>
          if newP > oldP then
            ⟨r.id, r.current_price, PriceChange.increased, Option.some oldP⟩
          else if newP < oldP then
            ⟨r.id, r.current_price, PriceChange.decreased, Option.some oldP⟩
          else
            ⟨r.id, r.current_price, PriceChange.unchanged, Option.none⟩
      | _, _ => ⟨r.id, r.current_price, PriceChange.none, Option.none⟩

/-- Modelled from the spec: the Merger over the whole new record set, in
fetch order. -/
def mergeCatalog (prior : List PrevRecord) (news : List NewRecord) : List MergedRecord :=
  news.map (mergeRecord prior)

/-- C2: a new record with a prior record of the same id and both prices
numeric is classified `increased`/`decreased`/`unchanged` by strict price
comparison, with `previous_price` the prior price exactly for an increase
or a decrease; no prior record, or a null price on either side, yields
`price_change = none` and `previous_price = null`. -/
theorem c2_merge_price_change (prior : List PrevRecord) (r : NewRecord) :
    (lookupPrior prior r.id = Option.none →
      (mergeRecord prior r).price_change = PriceChange.none ∧
      (mergeRecord prior r).previous_price = Option.none) ∧
    (∀ p, lookupPrior prior r.id = Option.some p →
      (r.current_price = Option.none ∨ p.current_price = Option.none →
        (mergeRecord prior r).price_change = PriceChange.none ∧
        (mergeRecord prior r).previous_price = Option.none) ∧
      (∀ newP oldP, r.current_price = Option.some newP →
        p.current_price = Option.some oldP →
        (newP > oldP →
          (mergeRecord prior r).price_change = PriceChange.increased ∧
          (mergeRecord prior r).previous_price = Option.some oldP) ∧
        (newP < oldP →
          (mergeRecord prior r).price_change = PriceChange.decreased ∧
          (mergeRecord prior r).previous_price = Option.some oldP) ∧
        (newP = oldP →
          (mergeRecord prior r).price_change = PriceChange.unchanged ∧
          (mergeRecord prior r).previous_price = Option.none))) := by
  constructor
  · intro h
    simp [mergeRecord, h]
  · intro p hp
    constructor
    · rintro (h | h)
      · simp only [mergeRecord, hp, h]
        cases p.current_price <;> simp
      · simp only [mergeRecord, hp, h]
        cases r.current_price <;> simp
    · intro newP oldP hn ho
      refine ⟨fun hgt => ?_, fun hlt => ?_, fun heq => ?_⟩
      · simp [mergeRecord, hp, hn, ho, hgt]
      · have hng : ¬ newP > oldP := lt_asymm hlt
        simp [mergeRecord, hp, hn, ho, hng, hlt]
      · subst heq
        simp [mergeRecord, hp, hn, ho, lt_irrefl]

/-- A prior catalog holding one record with a numeric price. -/
def priorG1 : List PrevRecord := [⟨"g1", Option.some 100⟩]

/-- A new record for the same id with a lower numeric price. -/
def newG1 : NewRecord := ⟨"g1", Option.some 80⟩

/-- C2 witness: the spec's Scenario A price drop (100 to 80). -/
theorem c2_merge_price_change_witness :
    (mergeRecord priorG1 newG1).price_change = PriceChange.decreased ∧
    (mergeRecord priorG1 newG1).previous_price = Option.some 100 :=
  (((c2_merge_price_change priorG1 newG1).2 ⟨"g1", Option.some 100⟩ (by decide)).2
    80 100 rfl rfl).2.1 (by norm_num)

/-- Modelled from the spec: the Notification Dispatcher's trigger — at
least one merged record decreased, or the debug override is on. The Python
notifier (`scrap.enviar_mails`) is not among the provided sources; the
trigger is documented in `TELEGRAM_SETUP.md`. -/
def shouldNotify (records : List MergedRecord) (debug : Bool) : Bool :=
  records.any (fun r => decide (r.price_change = PriceChange.decreased)) || debug

/-- The dispatch step's outcome: a notification was sent, or the run ended
silently. A silent run is not an error — there is no failure outcome. -/
inductive DispatchOutcome where
  | sent
  | silent
deriving DecidableEq

/-- Modelled from the spec: the dispatch decision taken from the merged
catalog and the debug flag. -/
def dispatchDecision (records : List MergedRecord) (debug : Bool) : DispatchOutcome :=
  if shouldNotify records debug then DispatchOutcome.sent else DispatchOutcome.silent

/-- C6: a notification is dispatched iff some merged record decreased or
the debug override is on; otherwise the outcome is the silent one (which is
not an error: `DispatchOutcome` has no failure case). -/
theorem c6_notification_trigger (records : List MergedRecord) (debug : Bool) :
    (dispatchDecision records debug = DispatchOutcome.sent ↔
      (∃ r ∈ records, r.price_change = PriceChange.decreased) ∨ debug = true) ∧
    (dispatchDecision records debug = DispatchOutcome.silent ↔
      ¬((∃ r ∈ records, r.price_change = PriceChange.decreased) ∨ debug = true)) := by
  have hiff : shouldNotify records debug = true ↔
      (∃ r ∈ records, r.price_change = PriceChange.decreased) ∨ debug = true := by
    simp [shouldNotify, List.any_eq_true]
  constructor
  · by_cases h : shouldNotify records debug = true
    · simp [dispatchDecision, h, hiff.mp h]
    · have h2 : shouldNotify records debug = false := by simpa using h
      simp only [dispatchDecision, h2]
      simp only [Bool.false_eq_true, if_false]
      constructor
      · intro hcon
        exact absurd hcon (by simp)
      · intro hor
        exact absurd (hiff.mpr hor) h
  · by_cases h : shouldNotify records debug = true
    · simp only [dispatchDecision, h, if_true]
      constructor
      · intro hcon
        exact absurd hcon (by simp)
      · intro hno
        exact absurd (hiff.mp h) hno
    · have h2 : shouldNotify records debug = false := by simpa using h
      simp only [dispatchDecision, h2]
      simp only [Bool.false_eq_true, if_false, true_iff]
      intro hor
      exact absurd (hiff.mpr hor) h

/-- Modelled from the spec: the persisted catalog artifact — the item
records plus the creation timestamp. -/
structure Artifact where
  juegos : List MergedRecord
  fecha_creacion : Option String
deriving DecidableEq

/-- Modelled from the spec: the Persistence Writer's change detection — if
the merged item content equals the previously persisted artifact's item
content (timestamp excluded from the comparison), the write is skipped and
the old artifact, old timestamp included, survives untouched; otherwise the
artifact is replaced with the merged items and the run's timestamp. The
Python writer is not among the provided sources. -/
def persistStep (prev : Artifact) (merged : List MergedRecord) (now : String) : Artifact :=
  if merged = prev.juegos then prev else ⟨merged, Option.some now⟩

/-- Embeds the workflow step "Commit and push JSON if changed"
(`git diff --staged --quiet` on the artifact): a commit happens exactly
when the artifact on disk differs from the committed one. -/
def commitStep (before after : Artifact) : Bool :=
  decide (before ≠ after)

/-- C7: when the merged item content equals the persisted artifact's item
content, the persistence step leaves the artifact (old timestamp included)
identical, and the downstream commit step detects no change and performs
no commit. -/
theorem c7_skip_write_when_unchanged (prev : Artifact) (merged : List MergedRecord)
    (now : String) (h : merged = prev.juegos) :
    persistStep prev merged now = prev ∧
    commitStep prev (persistStep prev merged now) = false := by
  have hskip : persistStep prev merged now = prev := by
    rw [persistStep, if_pos h]
  refine ⟨hskip, ?_⟩
  rw [hskip]
  simp [commitStep]

/-- An artifact with one record and an old timestamp. -/
def prevArtifact : Artifact where
  juegos := [⟨"g1", Option.some 80, PriceChange.decreased, Option.some 100⟩]
  fecha_creacion := Option.some "2024-01-01"

/-- C7 witness: re-persisting identical item content changes nothing and
triggers no commit. -/
theorem c7_skip_write_when_unchanged_witness :
    persistStep prevArtifact [⟨"g1", Option.some 80, PriceChange.decreased, Option.some 100⟩]
      "2024-06-01" = prevArtifact ∧
    commitStep prevArtifact
      (persistStep prevArtifact
        [⟨"g1", Option.some 80, PriceChange.decreased, Option.some 100⟩] "2024-06-01") = false :=
  c7_skip_write_when_unchanged prevArtifact
    [⟨"g1", Option.some 80, PriceChange.decreased, Option.some 100⟩] "2024-06-01" rfl
